import Mathlib

/-!
Verification of the PromptCrafter pipeline: a shallow embedding of
`src/core.py` (config loading, template placeholder extraction, placeholder
reconciliation) and `src/generator.py` (credential check, response-shape
extraction, sequential per-parameter generation), with theorems settling the
specification claims.

Python values produced by `yaml.safe_load` and handled by the generator are
modelled by the inductive `PyVal`; Python truthiness by `pyTruthy`; `dict.get`
on string-keyed dicts by `pyGet`.  Fallible functions return `Except`.
Provider interaction is modelled by passing the provider as a pure function
`Request → Except Unit Response`; the generator additionally returns the list
of requests actually issued (its call trace), which is the ghost observation
needed for the call-counting claims.
-/

set_option linter.unusedVariables false

namespace PromptCrafter

/-- Python values as returned by `yaml.safe_load` and handled by the code:
`None`, booleans, integers, strings, lists and string-keyed dicts. -/
inductive PyVal where
  | vnone : PyVal
  | vbool : Bool → PyVal
  | vint : Int → PyVal
  | vstr : String → PyVal
  | vlist : List PyVal → PyVal
  | vdict : List (String × PyVal) → PyVal

mutual

/-- Structural equality test on `PyVal` (Python `==` restricted to the value
shapes the program handles). -/
def pyBeq : PyVal → PyVal → Bool
  | .vnone, .vnone => true
  | .vbool a, .vbool b => a == b
  | .vint a, .vint b => a == b
  | .vstr a, .vstr b => a == b
  | .vlist xs, .vlist ys => pyBeqList xs ys
  | .vdict xs, .vdict ys => pyBeqFields xs ys
  | _, _ => false

/-- Elementwise `pyBeq` on lists. -/
def pyBeqList : List PyVal → List PyVal → Bool
  | [], [] => true
  | x :: xs, y :: ys => pyBeq x y && pyBeqList xs ys
  | _, _ => false

/-- Elementwise `pyBeq` on dict fields. -/
def pyBeqFields : List (String × PyVal) → List (String × PyVal) → Bool
  | [], [] => true
  | (k, v) :: xs, (k2, v2) :: ys => k == k2 && pyBeq v v2 && pyBeqFields xs ys
  | _, _ => false

end

mutual

theorem pyBeq_iff : ∀ a b : PyVal, pyBeq a b = true ↔ a = b
  | .vnone, .vnone => by simp [pyBeq]
  | .vbool a, .vbool b => by simp [pyBeq]
  | .vint a, .vint b => by simp [pyBeq]
  | .vstr a, .vstr b => by simp [pyBeq]
  | .vlist xs, .vlist ys => by
    rw [pyBeq]
    rw [pyBeqList_iff xs ys]
    simp
  | .vdict xs, .vdict ys => by
    rw [pyBeq]
    rw [pyBeqFields_iff xs ys]
    simp
  | .vnone, .vbool _ | .vnone, .vint _ | .vnone, .vstr _ | .vnone, .vlist _
  | .vnone, .vdict _ | .vbool _, .vnone | .vbool _, .vint _ | .vbool _, .vstr _
  | .vbool _, .vlist _ | .vbool _, .vdict _ | .vint _, .vnone | .vint _, .vbool _
  | .vint _, .vstr _ | .vint _, .vlist _ | .vint _, .vdict _ | .vstr _, .vnone
  | .vstr _, .vbool _ | .vstr _, .vint _ | .vstr _, .vlist _ | .vstr _, .vdict _
  | .vlist _, .vnone | .vlist _, .vbool _ | .vlist _, .vint _ | .vlist _, .vstr _
  | .vlist _, .vdict _ | .vdict _, .vnone | .vdict _, .vbool _ | .vdict _, .vint _
  | .vdict _, .vstr _ | .vdict _, .vlist _ => by simp [pyBeq]

theorem pyBeqList_iff : ∀ xs ys : List PyVal, pyBeqList xs ys = true ↔ xs = ys
  | [], [] => by simp [pyBeqList]
  | x :: xs, y :: ys => by
    rw [pyBeqList, Bool.and_eq_true, pyBeq_iff x y, pyBeqList_iff xs ys]
    simp
  | [], _ :: _ => by simp [pyBeqList]
  | _ :: _, [] => by simp [pyBeqList]

theorem pyBeqFields_iff :
    ∀ xs ys : List (String × PyVal), pyBeqFields xs ys = true ↔ xs = ys
  | [], [] => by simp [pyBeqFields]
  | (k, v) :: xs, (k2, v2) :: ys => by
    rw [pyBeqFields, Bool.and_eq_true, Bool.and_eq_true, pyBeq_iff v v2,
      pyBeqFields_iff xs ys]
    simp [Prod.ext_iff]
  | [], _ :: _ => by simp [pyBeqFields]
  | _ :: _, [] => by simp [pyBeqFields]

end

instance : DecidableEq PyVal := fun a b =>
  decidable_of_iff (pyBeq a b = true) (pyBeq_iff a b)

instance {ε α : Type} [DecidableEq ε] [DecidableEq α] :
    DecidableEq (Except ε α) := fun a b =>
  match a, b with
  | .ok x, .ok y => decidable_of_iff (x = y) (by simp)
  | .error e, .error f => decidable_of_iff (e = f) (by simp)
  | .ok _, .error _ => isFalse (by simp)
  | .error _, .ok _ => isFalse (by simp)

/-- Python truthiness (`bool(v)`): `None`, `False`, `0`, `""`, `[]`, an empty
dict are falsy, everything else truthy. -/
def pyTruthy : PyVal → Bool
  | .vnone => false
  | .vbool b => b
  | .vint n => n != 0
  | .vstr s => s != ""
  | .vlist xs => !xs.isEmpty
  | .vdict f => !f.isEmpty

/-- `d.get(k)` on a string-keyed dict: the value at `k`, else `None`. -/
def pyGet (f : List (String × PyVal)) (k : String) : PyVal :=
  match f.find? (fun p => p.1 == k) with
  | some p => p.2
  | none => .vnone

/-- Python `a or b`: `a` when truthy, else `b`. -/
def pyOr (a b : PyVal) : PyVal :=
  if pyTruthy a then a else b

/-- `d[k] = v` on a dict kept as an insertion-ordered association list:
overwrite in place when the key is present, else append. -/
def dictInsert {κ α : Type} [DecidableEq κ] (d : List (κ × α)) (k : κ) (v : α) :
    List (κ × α) :=
  if d.any (fun p => p.1 == k) then
    d.map (fun p => if p.1 = k then (k, v) else p)
  else d ++ [(k, v)]

/-- Errors `load_config` can raise: `ValueError` from the `params` shape
checks, `AttributeError` from `data.get` on a truthy non-dict document, and
`TypeError` from `Path(...)` on a non-string output directory/filename. -/
inductive LoadError where
  | shapeError
  | attributeError
  | typeError
deriving DecidableEq

/-- The dictionary `load_config` returns. -/
structure GenerationConfig where
  model_name : PyVal
  temperature : PyVal
  params : List (PyVal × PyVal)
  output_file : PyVal
deriving DecidableEq

/-- The `for item in params_data` loop of `load_config`: each item must be a
dict with truthy `name` and `prompt`, collected by `params[name] = prompt`. -/
def buildParams : List PyVal → List (PyVal × PyVal) →
    Except LoadError (List (PyVal × PyVal))
  | [], acc => .ok acc
  | item :: rest, acc =>
    match item with
    | .vdict f =>
      let name := pyGet f "name"
      let prompt := pyGet f "prompt"
      if !pyTruthy name || !pyTruthy prompt then .error .shapeError
      else buildParams rest (dictInsert acc name prompt)
    | _ => .error .shapeError

/-- `data.get("model", {}) if isinstance(data.get("model"), dict) else {}`. -/
def model_section (fields : List (String × PyVal)) : List (String × PyVal) :=
  match pyGet fields "model" with
  | .vdict m => m
  | _ => []

/-- `str(Path(directory) / filename)`. -/
def pathJoin (d f : String) : String :=
  if d = "" then f else if d.endsWith "/" then d ++ f else d ++ "/" ++ f

/-- The body of `load_config` once `data` is known to be a dict: resolve
`model_name` (top-level `openai_model`, else `model.name`), `temperature`
(top-level, else `model.temperature`), check and collect `params`, and
resolve `output_file` (top-level, else `output.directory` joined with
`output.filename`). -/
def load_config_data (fields : List (String × PyVal)) :
    Except LoadError GenerationConfig :=
  let msec := model_section fields
  let mname := pyOr (pyGet fields "openai_model") (pyGet msec "name")
  let temp :=
    match pyGet fields "temperature" with
    | .vnone => pyGet msec "temperature"
    | t => t
  match pyGet fields "params" with
  | .vlist items =>
    match buildParams items [] with
    | .error e => .error e
    | .ok params =>
      let ofv := pyGet fields "output_file"
      if pyTruthy ofv then .ok ⟨mname, temp, params, ofv⟩
      else
        let osec :=
          match pyGet fields "output" with
          | .vdict o => o
          | _ => []
        let dir := pyGet osec "directory"
        let fn := pyGet osec "filename"
        if pyTruthy dir && pyTruthy fn then
          match dir, fn with
          | .vstr d, .vstr f => .ok ⟨mname, temp, params, .vstr (pathJoin d f)⟩
          | _, _ => .error .typeError
        else .ok ⟨mname, temp, params, ofv⟩
  | _ => .error .shapeError

/-- `load_config` applied to the already-parsed YAML document (an empty
document parses to `None`); `data = yaml.safe_load(file) or {}` first replaces
a falsy document by the empty dict, and `data.get` on a truthy non-dict
raises `AttributeError`. -/
def load_config (doc : PyVal) : Except LoadError GenerationConfig :=
  let data := if pyTruthy doc then doc else .vdict []
  match data with
  | .vdict fields => load_config_data fields
  | _ => .error .attributeError

/-- The claim's per-item shape condition on a `params` element, written from
the spec's words with Python truthiness: the element is a record whose `name`
and `prompt` are both truthy. -/
def specGoodItem : PyVal → Bool
  | .vdict f => pyTruthy (pyGet f "name") && pyTruthy (pyGet f "prompt")
  | _ => false

/-- The claim's shape condition on the `params` field of a dict document:
present, a sequence, and with every element good. -/
def paramsFieldOk (fields : List (String × PyVal)) : Bool :=
  match pyGet fields "params" with
  | .vlist items => items.all specGoodItem
  | _ => false

/-- The claim's shape condition on a whole parsed document, after the
`or {}` normalisation `load_config` applies. -/
def specParamsOk (doc : PyVal) : Bool :=
  match (if pyTruthy doc then doc else .vdict []) with
  | .vdict fields => paramsFieldOk fields
  | _ => false

/-- A character matched by `[^{}]` in the placeholder pattern. -/
def isNonBrace (c : Char) : Bool :=
  c != '{' && c != '}'

/-- The scanning loop of `re.findall(r"{([^{}]+)}", text)`, with a fuel
argument bounding the number of steps (every step strictly shortens the
list, so `l.length` fuel always suffices): at a `{`, take the maximal run of
non-brace characters; the match succeeds when that run is non-empty and
followed by `}`, and scanning resumes after the `}`; otherwise scanning
advances past the `{`. -/
def findallAux : Nat → List Char → List String
  | _, [] => []
  | 0, _ :: _ => []
  | fuel + 1, c :: rest =>
    if c = '{' then
      let inner := rest.takeWhile isNonBrace
      match rest.drop inner.length with
      | '}' :: tail =>
        if inner.isEmpty then findallAux fuel rest
        else String.mk inner :: findallAux fuel tail
      | _ => findallAux fuel rest
    else findallAux fuel rest

/-- `re.findall(r"{([^{}]+)}", text)` on the text's character list. -/
def findall (l : List Char) : List String := findallAux l.length l

/-- The dedup loop of `load_template`: keep each name not yet `seen`, in
order, recording kept names in `seen`. -/
def dedupFirst : List String → List String → List String
  | [], _ => []
  | x :: xs, seen =>
    if x ∈ seen then dedupFirst xs seen
    else x :: dedupFirst xs (x :: seen)

/-- The dictionary `load_template` returns. -/
structure TemplateInfo where
  content : String
  placeholders : List String
deriving DecidableEq

/-- `load_template` applied to the template text already read from disk. -/
def load_template (text : String) : TemplateInfo :=
  ⟨text, dedupFirst (findall text.data) []⟩

/-- The payload of the placeholder-mismatch failure: the two reported sets. -/
structure PlaceholderMismatch where
  missing_in_config : Finset String
  missing_in_template : Finset String
deriving DecidableEq

/-- `validate_placeholders`: compare the template-placeholder set with the
config-parameter key set and fail, reporting both differences, when either
difference is non-empty. -/
def validate_placeholders (template_placeholders : List String)
    (config_params : List (String × String)) : Except PlaceholderMismatch Unit :=
  let template_set := template_placeholders.toFinset
  let config_set := (config_params.map Prod.fst).toFinset
  let missing_in_config := template_set \ config_set
  let missing_in_template := config_set \ template_set
  if missing_in_config.Nonempty ∨ missing_in_template.Nonempty then
    .error ⟨missing_in_config, missing_in_template⟩
  else .ok ()

/-! ### Generator (`src/generator.py`) -/

/-- Errors the generator raises: missing `OPENAI_API_KEY`, an empty prompt,
a provider exception wrapped by `RuntimeError`, an empty `choices` extraction,
a malformed first choice, and the `ValueError` from a parameter item lacking a
truthy `name` or `prompt`. -/
inductive GenError where
  | missingCredential
  | emptyPrompt
  | providerCallFailed
  | noChoices
  | malformedResponse
  | missingNameOrPrompt
deriving DecidableEq

/-- One chat message of the request payload. -/
structure Message where
  role : String
  content : PyVal
deriving DecidableEq

/-- The request `openai.ChatCompletion.create` is called with; `temperature`
is included only when the passed temperature is not `None`. -/
structure Request where
  model : String
  messages : List Message
  temperature : Option PyVal
deriving DecidableEq

/-- The request built by `generate_param` for a prompt. -/
def mkRequest (model : String) (prompt_text : PyVal) (temperature : PyVal) :
    Request :=
  ⟨model, [⟨"user", prompt_text⟩],
    if temperature = .vnone then none else some temperature⟩

/-- A provider response: either an SDK object — with an optional `choices`
attribute and an optional `response["choices"]` item (`none` when subscripting
raises) — or a plain Python value such as a dict. -/
inductive Response where
  | obj : Option PyVal → Option PyVal → Response
  | plain : PyVal → Response
deriving DecidableEq

/-- `_extract_choices`: try the `choices` attribute, then the `choices` field
of a plain dict, then `response["choices"]`, accepting the first that is a
list; return `[]` when none is (a plain non-dict value has no `choices`
attribute and its subscript raises, which is caught). -/
def extract_choices : Response → List PyVal
  | .obj a i =>
    match a with
    | some (.vlist l) => l
    | _ =>
      match i with
      | some (.vlist l) => l
      | _ => []
  | .plain v =>
    match v with
    | .vdict f =>
      match pyGet f "choices" with
      | .vlist l => l
      | _ => []
    | _ => []

/-- Whether `OPENAI_API_KEY` is set and non-empty (`if not api_key`). -/
def envTruthy : Option String → Bool
  | none => false
  | some s => s != ""

/-- Characters Python's `str.strip()` removes. -/
def isPyWhitespace (c : Char) : Bool :=
  c = ' ' || c = '\t' || c = '\n' || c = '\r' || c = '\x0b' || c = '\x0c'

/-- Python `s.strip()`: drop leading and trailing whitespace. -/
def pyStrip (s : String) : String :=
  ⟨((s.data.dropWhile isPyWhitespace).reverse.dropWhile isPyWhitespace).reverse⟩

/-- Python `str(v)` for the values the program handles. Containers are
rendered only approximately (the program never stringifies them on the paths
the claims concern). -/
def pyStr : PyVal → String
  | .vnone => "None"
  | .vbool b => if b then "True" else "False"
  | .vint n => toString n
  | .vstr s => s
  | .vlist _ => "<list>"
  | .vdict _ => "<dict>"

/-- The tail of `generate_param` after the provider call: reject an empty
`choices` list; take `choices[0].get("message")` when `choices[0]` is a dict
(else `None`); require the message to be truthy, a dict, and to contain
`"content"`; return `str(content).strip()`. -/
def extractContent (choices : List PyVal) : Except GenError String :=
  match choices with
  | [] => .error .noChoices
  | c :: _ =>
    let message := match c with | .vdict d => pyGet d "message" | _ => .vnone
    match message with
    | .vdict md =>
      if !pyTruthy (.vdict md) then .error .malformedResponse
      else if md.any (fun p => p.1 == "content") then
        .ok (pyStrip (pyStr (pyGet md "content")))
      else .error .malformedResponse
    | _ => .error .malformedResponse

/-- `generate_param`, with the provider passed in as a pure function and the
environment's `OPENAI_API_KEY` as an `Option String`.  Besides the result it
returns the list of provider calls issued (`[]` or one request), the ghost
trace of the sequential execution. -/
def generate_param (env : Option String)
    (provider : Request → Except Unit Response) (prompt_text : PyVal)
    (model : String) (temperature : PyVal) :
    Except GenError String × List Request :=
  if !envTruthy env then (.error .missingCredential, [])
  else if !pyTruthy prompt_text then (.error .emptyPrompt, [])
  else
    let req := mkRequest model prompt_text temperature
    match provider req with
    | .error _ => (.error .providerCallFailed, [req])
    | .ok resp => (extractContent (extract_choices resp), [req])

/-- The loop of `generate_all`: each item must have truthy `name` and
`prompt`; `generate_param` is called sequentially and results are collected
by `results[name] = generated`; any failure aborts with nothing but the
error.  The second component is the concatenated provider-call trace. -/
def generate_all_go (env : Option String)
    (provider : Request → Except Unit Response) (model : String)
    (temperature : PyVal) :
    List (List (String × PyVal)) → List (PyVal × String) →
    Except GenError (List (PyVal × String)) × List Request
  | [], acc => (.ok acc, [])
  | item :: rest, acc =>
    let name := pyGet item "name"
    let prompt := pyGet item "prompt"
    if !pyTruthy name || !pyTruthy prompt then (.error .missingNameOrPrompt, [])
    else
      match generate_param env provider prompt model temperature with
      | (.error e, tr) => (.error e, tr)
      | (.ok text, tr) =>
        let r := generate_all_go env provider model temperature rest
          (dictInsert acc name text)
        (r.1, tr ++ r.2)

/-- `generate_all` on a list of parameter items (string-keyed dicts), paired
with its provider-call trace. -/
def generate_all (env : Option String)
    (provider : Request → Except Unit Response)
    (params : List (List (String × PyVal))) (model : String)
    (temperature : PyVal) :
    Except GenError (List (PyVal × String)) × List Request :=
  generate_all_go env provider model temperature params []

/-- The `name` value of a parameter item. -/
def itemName (item : List (String × PyVal)) : PyVal := pyGet item "name"

/-- The `prompt` value of a parameter item. -/
def itemPrompt (item : List (String × PyVal)) : PyVal := pyGet item "prompt"

/-- The per-item step of `generate_all`, written as a straight-line
specification: check `name`/`prompt`, run `generate_param`, pair the name
with the generated text. -/
def stepResult (env : Option String)
    (provider : Request → Except Unit Response) (model : String)
    (temperature : PyVal) (item : List (String × PyVal)) :
    Except GenError (PyVal × String) :=
  if !pyTruthy (itemName item) || !pyTruthy (itemPrompt item) then
    .error .missingNameOrPrompt
  else
    match (generate_param env provider (itemPrompt item) model temperature).1 with
    | .error e => .error e
    | .ok text => .ok (itemName item, text)

/-- Sequential specification of `generate_all`'s result: the per-item results
in input order, aborting at the first error. -/
def specAll (env : Option String) (provider : Request → Except Unit Response)
    (model : String) (temperature : PyVal) :
    List (List (String × PyVal)) → Except GenError (List (PyVal × String))
  | [] => .ok []
  | item :: rest =>
    match stepResult env provider model temperature item with
    | .error e => .error e
    | .ok p =>
      match specAll env provider model temperature rest with
      | .error e => .error e
      | .ok l => .ok (p :: l)

/-- A test provider that answers every request with `"ECHO:" ++ prompt` in the
standard completion shape. -/
def echoProvider : Request → Except Unit Response := fun r =>
  .ok (.plain (.vdict [("choices", .vlist [.vdict [("message",
    .vdict [("content", .vstr ("ECHO:" ++
      pyStr ((r.messages.headD ⟨"user", .vnone⟩).content)))])]])]))

/-- A test provider that fails on the request for prompt `"p2"` and echoes
otherwise. -/
def failingProvider : Request → Except Unit Response := fun r =>
  if r.messages = [⟨"user", .vstr "p2"⟩] then .error () else echoProvider r

/-! ### Helper lemmas -/

lemma sdiff_nonempty_or_iff_ne {T C : Finset String} :
    ((T \ C).Nonempty ∨ (C \ T).Nonempty) ↔ T ≠ C := by
  rw [Finset.sdiff_nonempty, Finset.sdiff_nonempty]
  constructor
  · rintro (h | h) rfl <;> exact h (Finset.Subset.refl _)
  · intro hne
    by_contra hc
    push_neg at hc
    exact hne (Finset.Subset.antisymm hc.1 hc.2)

lemma mem_dedupFirst :
    ∀ (l seen : List String) (x : String),
      x ∈ dedupFirst l seen ↔ x ∈ l ∧ x ∉ seen
  | [], seen, x => by simp [dedupFirst]
  | y :: l, seen, x => by
    rw [dedupFirst]
    split
    · next hy =>
      rw [mem_dedupFirst l seen x]
      simp only [List.mem_cons]
      constructor
      · exact fun h => ⟨Or.inr h.1, h.2⟩
      · rintro ⟨rfl | h1, h2⟩
        · exact absurd hy h2
        · exact ⟨h1, h2⟩
    · next hy =>
      simp only [List.mem_cons, mem_dedupFirst l (y :: seen) x]
      constructor
      · rintro (rfl | ⟨h1, h2⟩)
        · exact ⟨Or.inl rfl, hy⟩
        · exact ⟨Or.inr h1, fun hx => h2 (Or.inr hx)⟩
      · rintro ⟨rfl | h1, h2⟩
        · exact Or.inl rfl
        · by_cases hxy : x = y
          · exact Or.inl hxy
          · refine Or.inr ⟨h1, fun hx => ?_⟩
            rcases hx with h | h
            · exact hxy h
            · exact h2 h

lemma nodup_dedupFirst : ∀ (l seen : List String), (dedupFirst l seen).Nodup
  | [], seen => by simp [dedupFirst]
  | y :: l, seen => by
    rw [dedupFirst]
    split
    · exact nodup_dedupFirst l seen
    · refine List.Nodup.cons ?_ (nodup_dedupFirst l (y :: seen))
      intro hy
      exact ((mem_dedupFirst l (y :: seen) y).1 hy).2 (List.mem_cons_self _ _)

lemma pairwise_dedupFirst :
    ∀ (l seen : List String),
      (dedupFirst l seen).Pairwise (fun a b => l.indexOf a < l.indexOf b)
  | [], seen => by simp [dedupFirst]
  | y :: l, seen => by
    rw [dedupFirst]
    split
    · next hy =>
      refine ((pairwise_dedupFirst l seen).imp_of_mem ?_)
      intro a b ha hb hab
      have ha' := (mem_dedupFirst l seen a).1 ha
      have hb' := (mem_dedupFirst l seen b).1 hb
      have hay : a ≠ y := fun h => ha'.2 (h ▸ hy)
      have hby : b ≠ y := fun h => hb'.2 (h ▸ hy)
      rw [List.indexOf_cons_ne _ (Ne.symm hay), List.indexOf_cons_ne _ (Ne.symm hby)]
      omega
    · next hy =>
      refine List.Pairwise.cons ?_ ?_
      · intro b hb
        have hb' := (mem_dedupFirst l (y :: seen) b).1 hb
        have hby : b ≠ y := fun h => hb'.2 (h ▸ List.mem_cons_self _ _)
        rw [List.indexOf_cons_self, List.indexOf_cons_ne _ (Ne.symm hby)]
        omega
      · refine ((pairwise_dedupFirst l (y :: seen)).imp_of_mem ?_)
        intro a b ha hb hab
        have ha' := (mem_dedupFirst l (y :: seen) a).1 ha
        have hb' := (mem_dedupFirst l (y :: seen) b).1 hb
        have hay : a ≠ y := fun h => ha'.2 (h ▸ List.mem_cons_self _ _)
        have hby : b ≠ y := fun h => hb'.2 (h ▸ List.mem_cons_self _ _)
        rw [List.indexOf_cons_ne _ (Ne.symm hay), List.indexOf_cons_ne _ (Ne.symm hby)]
        omega

lemma findallAux_mem :
    ∀ (fuel : Nat) (l : List Char) (p : String), p ∈ findallAux fuel l →
      ∃ inner : List Char, p = String.mk inner ∧ inner ≠ [] ∧
        ∀ c ∈ inner, isNonBrace c = true
  | _, [], p, hp => by simp [findallAux] at hp
  | 0, _ :: _, p, hp => by simp [findallAux] at hp
  | fuel + 1, c :: rest, p, hp => by
    simp only [findallAux] at hp
    split at hp
    · split at hp
      · split at hp
        · exact findallAux_mem fuel rest p hp
        · next hin =>
          rcases List.mem_cons.1 hp with rfl | hp'
          · exact ⟨rest.takeWhile isNonBrace, rfl,
              fun h => hin (by simp [h]),
              fun ch hch => List.mem_takeWhile_imp hch⟩
          · exact findallAux_mem fuel _ p hp'
      · exact findallAux_mem fuel rest p hp
    · exact findallAux_mem fuel rest p hp

lemma findall_mem (l : List Char) (p : String) (hp : p ∈ findall l) :
    ∃ inner : List Char, p = String.mk inner ∧ inner ≠ [] ∧
      ∀ c ∈ inner, isNonBrace c = true :=
  findallAux_mem l.length l p hp

/-! ### Claims -/

/-- C1: `validate_placeholders` succeeds exactly when the template-placeholder
set equals the config-parameter key set (order irrelevant), and on failure the
error carries the placeholders absent from the config and the config
parameters absent from the template. -/
theorem claim_C1 (tps : List String) (cps : List (String × String)) :
    (validate_placeholders tps cps = .ok () ↔
      tps.toFinset = (cps.map Prod.fst).toFinset) ∧
    (∀ e, validate_placeholders tps cps = .error e →
      tps.toFinset ≠ (cps.map Prod.fst).toFinset ∧
      e.missing_in_config = tps.toFinset \ (cps.map Prod.fst).toFinset ∧
      e.missing_in_template = (cps.map Prod.fst).toFinset \ tps.toFinset) := by
  have key := @sdiff_nonempty_or_iff_ne tps.toFinset (cps.map Prod.fst).toFinset
  simp only [validate_placeholders]
  split
  · next h =>
    constructor
    · constructor
      · intro hc
        exact absurd hc (by simp)
      · intro heq
        exact absurd heq (key.1 h)
    · intro e he
      injection he with he'
      exact ⟨key.1 h, by rw [← he'], by rw [← he']⟩
  · next h =>
    constructor
    · constructor
      · intro _
        by_contra hne
        exact h (key.2 hne)
      · intro _
        rfl
    · intro e he
      exact absurd he (by simp)

/-- Witness for C1: placeholders `x, y, z` against params `x, y` fail citing
`z` missing in config, and placeholders `x, y` against params `y, x`
succeed. -/
theorem claim_C1_witness :
    (["x", "y", "z"] : List String).toFinset ≠
      (([("x", "a"), ("y", "b")] : List (String × String)).map Prod.fst).toFinset ∧
    PlaceholderMismatch.missing_in_config ⟨{"z"}, ∅⟩ =
      (["x", "y", "z"] : List String).toFinset \
        (([("x", "a"), ("y", "b")] : List (String × String)).map Prod.fst).toFinset ∧
    validate_placeholders ["x", "y"] [("y", "b"), ("x", "a")] = .ok () := by
  have h1 := (claim_C1 ["x", "y", "z"] [("x", "a"), ("y", "b")]).2
    ⟨{"z"}, ∅⟩ (by decide)
  have h2 := (claim_C1 ["x", "y"] [("y", "b"), ("x", "a")]).1.2 (by decide)
  exact ⟨h1.1, h1.2.1, h2⟩

/-- C6: `load_template` returns the matched placeholder names with duplicates
removed, in first-occurrence order (the kept entries are exactly the distinct
matches, pairwise ordered by first occurrence in the raw match list), and on
`"Hi \x7ba\x7d, \x7bb\x7d, \x7ba\x7d again"` returns `["a", "b"]`. -/
theorem claim_C6 :
    (∀ s : String,
      (load_template s).placeholders.Nodup ∧
      (∀ x, x ∈ (load_template s).placeholders ↔ x ∈ findall s.data) ∧
      (load_template s).placeholders.Pairwise
        (fun a b => (findall s.data).indexOf a < (findall s.data).indexOf b)) ∧
    (load_template "Hi {a}, {b}, {a} again").placeholders = ["a", "b"] := by
  constructor
  · intro s
    refine ⟨nodup_dedupFirst _ _, fun x => ?_, pairwise_dedupFirst _ _⟩
    rw [load_template]
    simp [mem_dedupFirst]
  · decide

/-- C9: an empty config document (parsed to `None`) is treated as the empty
mapping and rejected with the `params` shape error, exactly as the empty-dict
document is. -/
theorem claim_C9 :
    load_config .vnone = .error .shapeError ∧
    load_config .vnone = load_config (.vdict []) := by
  decide

/-- C10: every placeholder returned by `load_template` is non-empty and
contains no brace character, and an empty brace pair yields no
placeholder. -/
theorem claim_C10 :
    (∀ (s : String) (p : String), p ∈ (load_template s).placeholders →
      p ≠ "" ∧ ∀ c ∈ p.data, c ≠ '{' ∧ c ≠ '}') ∧
    (load_template "x\x7b\x7dy").placeholders = [] := by
  constructor
  · intro s p hp
    rw [load_template] at hp
    simp only at hp
    have hp' := ((mem_dedupFirst _ _ _).1 hp).1
    obtain ⟨inner, rfl, hne, hch⟩ := findall_mem _ _ hp'
    refine ⟨fun h => hne (congrArg String.data h), ?_⟩
    intro c hc
    have := hch c hc
    rw [isNonBrace, Bool.and_eq_true] at this
    constructor
    · intro h
      rw [h] at this
      simp at this
    · intro h
      rw [h] at this
      simp at this
  · decide

/-- Witness for C10: the placeholder `"a"` of template `"x\x7ba\x7dy"` is
non-empty and brace-free. -/
theorem claim_C10_witness :
    ("a" : String) ≠ "" ∧ ∀ c ∈ ("a" : String).data, c ≠ '{' ∧ c ≠ '}' :=
  claim_C10.1 "x{a}y" "a" (by decide)

lemma mem_dictInsert {κ α : Type} [DecidableEq κ] {d : List (κ × α)} {k : κ}
    {v : α} {p : κ × α} (hp : p ∈ dictInsert d k v) : p ∈ d ∨ p = (k, v) := by
  unfold dictInsert at hp
  split at hp
  · rcases List.mem_map.1 hp with ⟨q, hq, hpq⟩
    by_cases h : q.1 = k
    · right
      simp only [h, if_pos] at hpq
      exact hpq.symm
    · left
      simp only [h, if_neg, not_false_iff] at hpq
      exact hpq ▸ hq
  · rcases List.mem_append.1 hp with h | h
    · exact Or.inl h
    · right
      simpa using h

lemma buildParams_error_iff :
    ∀ (items : List PyVal) (acc : List (PyVal × PyVal)) (e : LoadError),
      buildParams items acc = .error e ↔
        (e = .shapeError ∧ items.all specGoodItem = false)
  | [], acc, e => by simp [buildParams]
  | item :: rest, acc, e => by
    cases item with
    | vdict f =>
      cases hn : pyTruthy (pyGet f "name") with
      | false =>
        simp only [buildParams, hn, Bool.not_false, Bool.true_or, if_true]
        simp [specGoodItem, hn, eq_comm]
      | true =>
        cases hp : pyTruthy (pyGet f "prompt") with
        | false =>
          simp only [buildParams, hp, Bool.not_false, Bool.or_true, if_true]
          simp [specGoodItem, hp, eq_comm]
        | true =>
          simp only [buildParams, hn, hp, Bool.not_true, Bool.or_self]
          rw [if_neg (by simp), buildParams_error_iff rest
            (dictInsert acc (pyGet f "name") (pyGet f "prompt")) e]
          simp [specGoodItem, hn, hp]
    | vnone => simp [buildParams, specGoodItem, eq_comm]
    | vbool b => simp [buildParams, specGoodItem, eq_comm]
    | vint n => simp [buildParams, specGoodItem, eq_comm]
    | vstr t => simp [buildParams, specGoodItem, eq_comm]
    | vlist l => simp [buildParams, specGoodItem, eq_comm]

lemma buildParams_values :
    ∀ (items : List PyVal) (acc ps : List (PyVal × PyVal)),
      buildParams items acc = .ok ps →
      (∀ p ∈ acc, pyTruthy p.2 = true) → ∀ p ∈ ps, pyTruthy p.2 = true
  | [], acc, ps, h, hacc => by
    injection h with h'
    exact h' ▸ hacc
  | item :: rest, acc, ps, h, hacc => by
    cases item with
    | vdict f =>
      simp only [buildParams] at h
      split at h
      · exact absurd h (by simp)
      · next hgood =>
        refine buildParams_values rest _ ps h ?_
        intro p hp
        rcases mem_dictInsert hp with hp' | rfl
        · exact hacc p hp'
        · have hg : pyTruthy (pyGet f "prompt") = true := by
            cases hq : pyTruthy (pyGet f "prompt")
            · exact absurd (by simp [hq]) hgood
            · rfl
          exact hg
    | vnone => simp [buildParams] at h
    | vbool b => simp [buildParams] at h
    | vint n => simp [buildParams] at h
    | vstr t => simp [buildParams] at h
    | vlist l => simp [buildParams] at h

lemma load_config_data_shape (fields : List (String × PyVal)) :
    load_config_data fields = .error .shapeError ↔ paramsFieldOk fields = false := by
  simp only [load_config_data, paramsFieldOk]
  split
  · next items heq =>
    split
    · next e herr =>
      have h := (buildParams_error_iff items [] e).1 herr
      simp [h.1, h.2]
    · next params hok =>
      have hgood : items.all specGoodItem = true := by
        by_contra hc
        have : buildParams items [] = .error .shapeError :=
          (buildParams_error_iff items [] .shapeError).2
            ⟨rfl, Bool.not_eq_true _ ▸ hc⟩
        rw [this] at hok
        exact absurd hok (by simp)
      simp only [hgood]
      constructor
      · intro h
        split at h
        · exact absurd h (by simp)
        · split at h
          · split at h <;> simp_all
          · exact absurd h (by simp)
      · intro h
        exact absurd h (by simp)
  · next hnl =>
    constructor
    · intro _
      cases hv : pyGet fields "params" <;> simp_all
    · intro _
      rfl

lemma load_config_data_values (fields : List (String × PyVal))
    (cfg : GenerationConfig) (h : load_config_data fields = .ok cfg) :
    ∀ p ∈ cfg.params, pyTruthy p.2 = true := by
  simp only [load_config_data] at h
  split at h
  · next items heq =>
    split at h
    · exact absurd h (by simp)
    · next params hok =>
      have hvals := buildParams_values items [] params hok (by simp)
      split at h
      · injection h with h'
        subst h'
        exact hvals
      · split at h
        · split at h
          · injection h with h'
            subst h'
            exact hvals
          · exact absurd h (by simp)
        · injection h with h'
          subst h'
          exact hvals
  · exact absurd h (by simp)

lemma load_config_data_resolution (fields : List (String × PyVal))
    (cfg : GenerationConfig) (h : load_config_data fields = .ok cfg) :
    cfg.model_name =
      pyOr (pyGet fields "openai_model") (pyGet (model_section fields) "name") ∧
    cfg.temperature =
      (match pyGet fields "temperature" with
       | .vnone => pyGet (model_section fields) "temperature"
       | t => t) := by
  simp only [load_config_data] at h
  split at h
  · split at h
    · exact absurd h (by simp)
    · split at h
      · injection h with h'
        subst h'
        exact ⟨rfl, rfl⟩
      · split at h
        · split at h
          · injection h with h'
            subst h'
            exact ⟨rfl, rfl⟩
          · exact absurd h (by simp)
        · injection h with h'
          subst h'
          exact ⟨rfl, rfl⟩
  · exact absurd h (by simp)

/-- C5 (amended): restricted to documents that are mappings or falsy, and with
"non-empty `name`/`prompt` string" weakened to Python truthiness:
`load_config` fails with the `params` shape error exactly when `params` is
absent, not a sequence, or contains a non-record element or one with a falsy
`name` or `prompt`; and every successfully returned config's `params` mapping
(possibly empty) holds only truthy prompt values. -/
theorem claim_C5 (doc : PyVal)
    (hdoc : pyTruthy doc = false ∨ ∃ f, doc = PyVal.vdict f) :
    (load_config doc = .error .shapeError ↔ specParamsOk doc = false) ∧
    (∀ cfg, load_config doc = .ok cfg → ∀ p ∈ cfg.params, pyTruthy p.2 = true) := by
  have key : ∀ fields : List (String × PyVal),
      (load_config_data fields = .error .shapeError ↔
        paramsFieldOk fields = false) ∧
      (∀ cfg, load_config_data fields = .ok cfg →
        ∀ p ∈ cfg.params, pyTruthy p.2 = true) :=
    fun fields => ⟨load_config_data_shape fields,
      fun cfg h => load_config_data_values fields cfg h⟩
  rcases hdoc with h | ⟨f, rfl⟩
  · simpa only [load_config, specParamsOk, h, if_false] using key []
  · by_cases h : pyTruthy (.vdict f)
    · simpa only [load_config, specParamsOk, h, if_true] using key f
    · simpa only [load_config, specParamsOk, Bool.not_eq_true _ ▸ h, if_false]
        using key []

/-- Counterexample to C5 as stated: a present-but-empty `params` sequence
loads successfully with an empty mapping, and a record whose `prompt` is the
integer `7` (not a non-empty string) also loads successfully. -/
theorem claim_C5_counterexample :
    load_config (.vdict [("params", .vlist [])]) =
      .ok ⟨.vnone, .vnone, [], .vnone⟩ ∧
    load_config (.vdict [("params",
        .vlist [.vdict [("name", .vstr "a"), ("prompt", .vint 7)]])]) =
      .ok ⟨.vnone, .vnone, [(.vstr "a", .vint 7)], .vnone⟩ := by
  decide

/-- Witness for C5: a document whose `params` is a string fails with the
shape error. -/
theorem claim_C5_witness :
    load_config (.vdict [("params", .vstr "x")]) = .error .shapeError :=
  (claim_C5 _ (Or.inr ⟨_, rfl⟩)).1.2 (by decide)

/-- C7: on any successfully loaded dict document, `model_name` resolves to
top-level `openai_model` when truthy, else to nested `model.name`;
`temperature` resolves to top-level `temperature` when present, else to
nested `model.temperature`; in particular `openai_model: "A"` beats
`model.name: "B"`, and `model.name: "B"` alone is used. -/
theorem claim_C7 :
    (∀ (fields : List (String × PyVal)) (cfg : GenerationConfig),
      load_config (.vdict fields) = .ok cfg →
      pyTruthy (.vdict fields) = true →
      (pyTruthy (pyGet fields "openai_model") = true →
        cfg.model_name = pyGet fields "openai_model") ∧
      (pyTruthy (pyGet fields "openai_model") = false →
        cfg.model_name = pyGet (model_section fields) "name") ∧
      (pyGet fields "temperature" = .vnone →
        cfg.temperature = pyGet (model_section fields) "temperature") ∧
      (pyGet fields "temperature" ≠ .vnone →
        cfg.temperature = pyGet fields "temperature")) ∧
    load_config (.vdict [("openai_model", .vstr "A"),
        ("model", .vdict [("name", .vstr "B")]), ("params", .vlist [])]) =
      .ok ⟨.vstr "A", .vnone, [], .vnone⟩ ∧
    load_config (.vdict [("model", .vdict [("name", .vstr "B")]),
        ("params", .vlist [])]) =
      .ok ⟨.vstr "B", .vnone, [], .vnone⟩ := by
  refine ⟨?_, by decide, by decide⟩
  intro fields cfg h htr
  rw [load_config] at h
  simp only [htr, if_true] at h
  have hres := load_config_data_resolution fields cfg h
  refine ⟨?_, ?_, ?_, ?_⟩
  · intro ht
    rw [hres.1, pyOr, ht]
    simp
  · intro ht
    rw [hres.1, pyOr, ht]
    simp
  · intro ht
    rw [hres.2, ht]
  · intro ht
    rw [hres.2]
    cases hv : pyGet fields "temperature" <;> simp_all
/-- Witness for C7: with both `openai_model: "A"` and `model.name: "B"`
present, the loaded `model_name` is the top-level `"A"`. -/
theorem claim_C7_witness :
    (GenerationConfig.mk (.vstr "A") .vnone [] .vnone).model_name =
      pyGet [("openai_model", PyVal.vstr "A"),
        ("model", .vdict [("name", .vstr "B")]),
        ("params", .vlist [])] "openai_model" :=
  (claim_C7.1 _ _ (by decide) (by decide)).1 (by decide)

lemma dictInsert_fresh {κ α : Type} [DecidableEq κ] {d : List (κ × α)} {k : κ}
    {v : α} (h : ∀ q ∈ d, q.1 ≠ k) : dictInsert d k v = d ++ [(k, v)] := by
  unfold dictInsert
  rw [if_neg]
  simp only [List.any_eq_true, beq_iff_eq, not_exists]
  intro p
  rintro ⟨hp, hpk⟩
  exact h p hp hpk

lemma foldl_dictInsert_fresh {κ α : Type} [DecidableEq κ] :
    ∀ (l acc : List (κ × α)),
      (l.map Prod.fst).Nodup →
      (∀ p ∈ l, ∀ q ∈ acc, p.1 ≠ q.1) →
      l.foldl (fun a p => dictInsert a p.1 p.2) acc = acc ++ l
  | [], acc, _, _ => by simp
  | p :: l, acc, hnd, hfresh => by
    simp only [List.foldl_cons]
    rw [dictInsert_fresh
      (fun q hq => (hfresh p (List.mem_cons_self _ _) q hq).symm)]
    rw [foldl_dictInsert_fresh l (acc ++ [(p.1, p.2)])
      (by simpa using (List.nodup_cons.1 (by simpa using hnd)).2) ?_]
    · simp
    · intro r hr q hq
      rcases List.mem_append.1 hq with hq' | hq'
      · exact hfresh r (List.mem_cons_of_mem _ hr) q hq'
      · have : q = (p.1, p.2) := by simpa using hq'
        subst this
        have hnp : p.1 ∉ l.map Prod.fst :=
          (List.nodup_cons.1 (by simpa using hnd)).1
        intro hc
        exact hnp (hc ▸ List.mem_map_of_mem Prod.fst hr)

lemma generate_all_go_fst (env : Option String)
    (prov : Request → Except Unit Response) (model : String) (temp : PyVal) :
    ∀ (items : List (List (String × PyVal))) (acc : List (PyVal × String)),
      (generate_all_go env prov model temp items acc).1 =
        (match specAll env prov model temp items with
         | .error e => .error e
         | .ok l => .ok (l.foldl (fun a p => dictInsert a p.1 p.2) acc))
  | [], acc => by simp [generate_all_go, specAll]
  | item :: rest, acc => by
    simp only [generate_all_go, specAll, stepResult, itemName, itemPrompt]
    split
    · rfl
    · rcases hE : generate_param env prov (pyGet item "prompt") model temp
        with ⟨r1, r2⟩
      cases r1 with
      | error e => rfl
      | ok t =>
        dsimp only
        rw [generate_all_go_fst env prov model temp rest
          (dictInsert acc (pyGet item "name") t)]
        cases hS : specAll env prov model temp rest with
        | error e => rfl
        | ok l => simp

lemma specAll_names (env : Option String)
    (prov : Request → Except Unit Response) (model : String) (temp : PyVal) :
    ∀ (items : List (List (String × PyVal))) (l : List (PyVal × String)),
      specAll env prov model temp items = .ok l →
      l.map Prod.fst = items.map itemName
  | [], l, h => by
    simp only [specAll] at h
    injection h with h'
    rw [← h']
    rfl
  | item :: rest, l, h => by
    simp only [specAll] at h
    split at h
    · exact absurd h (by simp)
    · next p hp =>
      split at h
      · exact absurd h (by simp)
      · next l' hl' =>
        injection h with h'
        subst h'
        simp only [List.map_cons]
        rw [specAll_names env prov model temp rest l' hl']
        have hp1 : p.1 = itemName item := by
          unfold stepResult at hp
          split at hp
          · exact absurd hp (by simp)
          · split at hp
            · exact absurd hp (by simp)
            · injection hp with hp'
              rw [← hp']
        rw [hp1]

lemma generate_param_snd (env : Option String)
    (prov : Request → Except Unit Response) (p : PyVal) (model : String)
    (temp : PyVal) (h1 : envTruthy env = true) (h2 : pyTruthy p = true) :
    (generate_param env prov p model temp).2 = [mkRequest model p temp] := by
  unfold generate_param
  simp only [h1, h2, Bool.not_true, Bool.false_eq_true, if_false]
  cases prov (mkRequest model p temp) <;> rfl

lemma generate_all_go_fail (env : Option String)
    (prov : Request → Except Unit Response) (model : String) (temp : PyVal) :
    ∀ (params : List (List (String × PyVal))) (i : Nat)
      (acc : List (PyVal × String)),
      i < params.length →
      envTruthy env = true →
      (∀ j, j ≤ i → pyTruthy (itemName (params.getD j [])) = true ∧
        pyTruthy (itemPrompt (params.getD j [])) = true) →
      (∀ j, j < i → ∃ t,
        (generate_param env prov (itemPrompt (params.getD j [])) model temp).1 =
          .ok t) →
      prov (mkRequest model (itemPrompt (params.getD i [])) temp) = .error () →
      (generate_all_go env prov model temp params acc).1 =
        .error .providerCallFailed ∧
      (generate_all_go env prov model temp params acc).2 =
        (params.take (i + 1)).map (fun it => mkRequest model (itemPrompt it) temp)
  | [], i, acc, hi, _, _, _, _ => absurd hi (by simp)
  | it :: rest, i, acc, hi, henv, hitems, hcalls, hfail => by
    have h0 := hitems 0 (Nat.zero_le _)
    simp only [List.getD_cons_zero, itemName, itemPrompt] at h0
    cases i with
    | zero =>
      simp only [List.getD_cons_zero, itemPrompt] at hfail
      have hgp : generate_param env prov (pyGet it "prompt") model temp =
          (.error .providerCallFailed,
            [mkRequest model (pyGet it "prompt") temp]) := by
        unfold generate_param
        simp only [henv, h0.2, Bool.not_true, Bool.false_eq_true, if_false]
        rw [hfail]
      simp only [generate_all_go, h0.1, h0.2, Bool.not_true, Bool.or_self,
        Bool.false_eq_true, if_false, hgp]
      refine ⟨by simp, ?_⟩
      simp [itemPrompt]
    | succ i' =>
      obtain ⟨t0, ht0⟩ := hcalls 0 (Nat.succ_pos _)
      simp only [List.getD_cons_zero, itemPrompt] at ht0
      have htr := generate_param_snd env prov (pyGet it "prompt") model
        temp henv h0.2
      have IH := generate_all_go_fail env prov model temp rest i'
        (dictInsert acc (pyGet it "name") t0)
        (by simpa using Nat.lt_of_succ_lt_succ (by simpa using hi))
        henv
        (fun j hj => by
          have := hitems (j + 1) (Nat.succ_le_succ hj)
          simpa [List.getD_cons_succ] using this)
        (fun j hj => by
          have := hcalls (j + 1) (Nat.succ_lt_succ hj)
          simpa [List.getD_cons_succ] using this)
        (by
          have := hfail
          simpa [List.getD_cons_succ] using this)
      simp only [generate_all_go, h0.1, h0.2, Bool.not_true, Bool.or_self,
        Bool.false_eq_true, if_false]
      rcases hE : generate_param env prov (pyGet it "prompt") model temp
        with ⟨r1, r2⟩
      rw [hE] at ht0 htr
      dsimp only at ht0 htr
      subst ht0
      subst htr
      dsimp only
      refine ⟨IH.1, ?_⟩
      rw [IH.2]
      simp [List.take_succ_cons, itemPrompt]

/-- C2: when the parameter names are distinct and `generate_all` succeeds, the
result's keys are exactly the input names in input order, and the result is
the per-parameter sequence of `generate_param` outputs (the trimmed message
content of the first completion choice for that parameter's prompt); with an
echo provider, `greeting: hi, closing: bye` yields
`greeting: ECHO:hi, closing: ECHO:bye`. -/
theorem claim_C2 :
    (∀ (env : Option String) (prov : Request → Except Unit Response)
      (params : List (List (String × PyVal))) (model : String) (temp : PyVal)
      (res : List (PyVal × String)),
      (params.map itemName).Nodup →
      (generate_all env prov params model temp).1 = .ok res →
      res.map Prod.fst = params.map itemName ∧
      specAll env prov model temp params = .ok res) ∧
    (generate_all (some "k") echoProvider
        [[("name", .vstr "greeting"), ("prompt", .vstr "hi")],
         [("name", .vstr "closing"), ("prompt", .vstr "bye")]]
        "gpt-4" .vnone).1 =
      .ok [(.vstr "greeting", "ECHO:hi"), (.vstr "closing", "ECHO:bye")] := by
  constructor
  · intro env prov params model temp res hnd hok
    rw [generate_all, generate_all_go_fst] at hok
    cases hS : specAll env prov model temp params with
    | error e =>
      rw [hS] at hok
      exact absurd hok (by simp)
    | ok l =>
      rw [hS] at hok
      dsimp only at hok
      have hnames := specAll_names env prov model temp params l hS
      have hfold : l.foldl (fun a p => dictInsert a p.1 p.2) [] = [] ++ l := by
        apply foldl_dictInsert_fresh
        · rw [hnames]
          exact hnd
        · intro p hp q hq
          simp at hq
      rw [hfold] at hok
      simp only [List.nil_append] at hok
      injection hok with h'
      subst h'
      exact ⟨hnames, rfl⟩
  · decide

/-- Witness for C2: the universal part applied to the echo run. -/
theorem claim_C2_witness :
    ([((.vstr "greeting" : PyVal), "ECHO:hi"),
      (.vstr "closing", "ECHO:bye")].map Prod.fst =
      [[("name", (.vstr "greeting" : PyVal)), ("prompt", .vstr "hi")],
       [("name", .vstr "closing"), ("prompt", .vstr "bye")]].map itemName) ∧
    specAll (some "k") echoProvider "gpt-4" .vnone
        [[("name", .vstr "greeting"), ("prompt", .vstr "hi")],
         [("name", .vstr "closing"), ("prompt", .vstr "bye")]] =
      .ok [(.vstr "greeting", "ECHO:hi"), (.vstr "closing", "ECHO:bye")] :=
  claim_C2.1 (some "k") echoProvider
    [[("name", .vstr "greeting"), ("prompt", .vstr "hi")],
     [("name", .vstr "closing"), ("prompt", .vstr "bye")]]
    "gpt-4" .vnone
    [(.vstr "greeting", "ECHO:hi"), (.vstr "closing", "ECHO:bye")]
    (by decide) (by decide)

/-- C3: if the provider call for parameter `i` fails after parameters before
`i` succeeded, `generate_all` fails with the provider-call error (returning no
mapping at all), and its provider-call trace is exactly the requests for
parameters `0..i` — parameters after `i` are never sent. -/
theorem claim_C3 (env : Option String)
    (prov : Request → Except Unit Response) (model : String) (temp : PyVal)
    (params : List (List (String × PyVal))) (i : Nat)
    (hi : i < params.length)
    (henv : envTruthy env = true)
    (hitems : ∀ j, j ≤ i → pyTruthy (itemName (params.getD j [])) = true ∧
      pyTruthy (itemPrompt (params.getD j [])) = true)
    (hcalls : ∀ j, j < i → ∃ t,
      (generate_param env prov (itemPrompt (params.getD j [])) model temp).1 =
        .ok t)
    (hfail : prov (mkRequest model (itemPrompt (params.getD i [])) temp) =
      .error ()) :
    (generate_all env prov params model temp).1 = .error .providerCallFailed ∧
    (generate_all env prov params model temp).2 =
      (params.take (i + 1)).map (fun it => mkRequest model (itemPrompt it) temp) :=
  generate_all_go_fail env prov model temp params i [] hi henv hitems hcalls
    hfail

/-- Witness for C3: three parameters, the provider fails on the second; the
run fails and exactly the first two requests were issued. -/
theorem claim_C3_witness :
    (generate_all (some "k") failingProvider
        [[("name", .vstr "a"), ("prompt", .vstr "p1")],
         [("name", .vstr "b"), ("prompt", .vstr "p2")],
         [("name", .vstr "c"), ("prompt", .vstr "p3")]] "m" .vnone).1 =
      .error .providerCallFailed ∧
    (generate_all (some "k") failingProvider
        [[("name", .vstr "a"), ("prompt", .vstr "p1")],
         [("name", .vstr "b"), ("prompt", .vstr "p2")],
         [("name", .vstr "c"), ("prompt", .vstr "p3")]] "m" .vnone).2 =
      [mkRequest "m" (.vstr "p1") .vnone, mkRequest "m" (.vstr "p2") .vnone] := by
  have h := claim_C3 (some "k") failingProvider "m" .vnone
    [[("name", .vstr "a"), ("prompt", .vstr "p1")],
     [("name", .vstr "b"), ("prompt", .vstr "p2")],
     [("name", .vstr "c"), ("prompt", .vstr "p3")]] 1
    (by decide) (by decide)
    (by decide)
    (fun j hj => by
      have hj0 : j = 0 := by omega
      subst hj0
      exact ⟨"ECHO:p1", by decide⟩)
    (by decide)
  exact ⟨h.1, h.2.trans (by decide)⟩

/-- C4 (amended): with the credential unset or empty, zero provider calls are
ever issued, and `generate_all` fails with the missing-credential error
whenever the parameter list is non-empty and its first item has truthy `name`
and `prompt`; an empty parameter list succeeds with an empty mapping without
consulting the credential. -/
theorem claim_C4 (env : Option String)
    (prov : Request → Except Unit Response)
    (params : List (List (String × PyVal))) (model : String) (temp : PyVal)
    (henv : envTruthy env = false) :
    (generate_all env prov params model temp).2 = [] ∧
    (∀ it rest, params = it :: rest →
      pyTruthy (itemName it) = true → pyTruthy (itemPrompt it) = true →
      (generate_all env prov params model temp).1 = .error .missingCredential) := by
  cases params with
  | nil =>
    refine ⟨rfl, ?_⟩
    intro it rest h
    exact absurd h (by simp)
  | cons it rest =>
    have hgen : ∀ hn : pyTruthy (pyGet it "name") = true,
        ∀ hp : pyTruthy (pyGet it "prompt") = true,
        generate_all env prov (it :: rest) model temp =
          (.error .missingCredential, []) := by
      intro hn hp
      have hgp : generate_param env prov (pyGet it "prompt") model temp =
          (.error .missingCredential, []) := by
        unfold generate_param
        simp [henv]
      rw [generate_all]
      simp only [generate_all_go, hn, hp, Bool.not_true, Bool.or_self,
        Bool.false_eq_true, if_false, hgp]
    constructor
    · by_cases hn : pyTruthy (pyGet it "name")
      · by_cases hp : pyTruthy (pyGet it "prompt")
        · rw [hgen hn hp]
        · rw [generate_all]
          simp only [generate_all_go, Bool.not_eq_true _ ▸ hp, Bool.not_false,
            Bool.or_true, if_true]
      · rw [generate_all]
        simp only [generate_all_go, Bool.not_eq_true _ ▸ hn, Bool.not_false,
          Bool.true_or, if_true]
    · intro it' rest' h hn hp
      injection h with h1 h2
      subst h1
      subst h2
      rw [hgen (by simpa [itemName] using hn) (by simpa [itemPrompt] using hp)]

/-- Counterexample to C4 as stated: with the credential unset, an empty
parameter list makes `generate_all` succeed with an empty mapping (no failure
at all), and a parameter item without `name`/`prompt` makes it fail with the
item-shape error rather than the missing-credential error. -/
theorem claim_C4_counterexample :
    generate_all none echoProvider [] "m" .vnone = (.ok [], []) ∧
    (generate_all none echoProvider [[]] "m" .vnone).1 =
      .error .missingNameOrPrompt := by
  decide

/-- Witness for C4: credential unset, one well-formed parameter: no provider
call and the missing-credential failure. -/
theorem claim_C4_witness :
    (generate_all none echoProvider
        [[("name", .vstr "a"), ("prompt", .vstr "p")]] "m" .vnone).2 = [] ∧
    (generate_all none echoProvider
        [[("name", .vstr "a"), ("prompt", .vstr "p")]] "m" .vnone).1 =
      .error .missingCredential := by
  have h := claim_C4 none echoProvider
    [[("name", .vstr "a"), ("prompt", .vstr "p")]] "m" .vnone rfl
  exact ⟨h.1, h.2 _ _ rfl (by decide) (by decide)⟩

lemma extractContent_cons_ne_noChoices (c : PyVal) (rest : List PyVal) :
    extractContent (c :: rest) ≠ .error .noChoices := by
  simp only [extractContent]
  cases c with
  | vdict d =>
    dsimp only
    cases hm : pyGet d "message" with
    | vdict md =>
      dsimp only
      split
      · simp
      · split <;> simp
    | vnone => simp
    | vbool b => simp
    | vint n => simp
    | vstr t => simp
    | vlist l => simp
  | vnone => simp
  | vbool b => simp
  | vint n => simp
  | vstr t => simp
  | vlist l => simp

/-- C8: the generator's choices extraction accepts an object whose `choices`
attribute is a list and a plain dict whose `choices` field is a list; it
returns no choices only when the representation consulted (attribute first,
then dict field / subscript) is not a non-empty list; and `generate_param`
reports the no-results error exactly when the extraction of the provider's
response is empty. -/
theorem claim_C8 :
    (∀ (i : Option PyVal) (l : List PyVal),
      extract_choices (.obj (some (.vlist l)) i) = l) ∧
    (∀ (f : List (String × PyVal)) (l : List PyVal),
      pyGet f "choices" = .vlist l → extract_choices (.plain (.vdict f)) = l) ∧
    (∀ (a i : Option PyVal), extract_choices (.obj a i) = [] →
      (∀ l, a = some (.vlist l) → l = []) ∧
      ((∀ l, a ≠ some (.vlist l)) → ∀ l, i = some (.vlist l) → l = [])) ∧
    (∀ (f : List (String × PyVal)), extract_choices (.plain (.vdict f)) = [] →
      ∀ l, pyGet f "choices" = .vlist l → l = []) ∧
    (∀ (env : Option String) (prov : Request → Except Unit Response)
      (p : PyVal) (model : String) (temp : PyVal) (resp : Response),
      envTruthy env = true → pyTruthy p = true →
      prov (mkRequest model p temp) = .ok resp →
      ((generate_param env prov p model temp).1 = .error .noChoices ↔
        extract_choices resp = [])) := by
  refine ⟨fun i l => rfl, ?_, ?_, ?_, ?_⟩
  · intro f l h
    simp [extract_choices, h]
  · intro a i h
    constructor
    · intro l hl
      subst hl
      simpa [extract_choices] using h
    · intro ha l hl
      subst hl
      rcases a with _ | av
      · simpa [extract_choices] using h
      · cases av with
        | vlist m => exact absurd rfl (ha m)
        | vnone => simpa [extract_choices] using h
        | vbool b => simpa [extract_choices] using h
        | vint n => simpa [extract_choices] using h
        | vstr t => simpa [extract_choices] using h
        | vdict d => simpa [extract_choices] using h
  · intro f h l hl
    simp only [extract_choices, hl] at h
    exact h
  · intro env prov p model temp resp henv hp hcall
    unfold generate_param
    simp only [henv, hp, Bool.not_true, Bool.false_eq_true, if_false, hcall]
    cases hc : extract_choices resp with
    | nil => simp [extractContent]
    | cons c rest =>
      constructor
      · intro h
        exact absurd h (extractContent_cons_ne_noChoices c rest)
      · intro h
        exact absurd h (by simp)

/-- Witness for C8: a plain dict whose `choices` field is a one-element list
has that element extracted. -/
theorem claim_C8_witness :
    extract_choices (.plain (.vdict [("choices", .vlist [.vint 1])])) =
      [.vint 1] :=
  claim_C8.2.1 _ _ (by decide)

end PromptCrafter
